import Mathlib

/-!
Verification of the `hudserver` realtime audio fusion core
(`src/server/hudserver/server.py`) against its natural-language
specification.  Each Python helper is embedded shallowly: pure float
arithmetic becomes exact real/rational arithmetic, stateful handlers
become explicit state-passing functions, and fallible paths return
`Except`/`Option`.
-/

namespace HudSpec

/-! ## Angle helpers (`HudServer._wrap_deg`, server.py:2065-2066)

Python: `return ((deg + 180.0) % 360.0) - 180.0`.  Python's float `%`
with a positive divisor returns a value in `[0, 360)`, i.e. the
mathematical residue `x - 360*⌊x/360⌋`. -/

noncomputable def wrap_deg (deg : ℝ) : ℝ :=
  ((deg + 180) - 360 * (⌊(deg + 180) / 360⌋ : ℤ)) - 180

lemma wrap_deg_eq_fract (deg : ℝ) :
    wrap_deg deg = 360 * Int.fract ((deg + 180) / 360) - 180 := by
  unfold wrap_deg Int.fract
  field_simp

lemma wrap_deg_mem_Ico (deg : ℝ) : wrap_deg deg ∈ Set.Ico (-180 : ℝ) 180 := by
  rw [wrap_deg_eq_fract]
  constructor
  · have h := Int.fract_nonneg ((deg + 180) / 360)
    nlinarith
  · have h := Int.fract_lt_one ((deg + 180) / 360)
    nlinarith

lemma wrap_deg_eq_self_of_mem {x : ℝ} (hx : x ∈ Set.Ico (-180 : ℝ) 180) :
    wrap_deg x = x := by
  obtain ⟨h1, h2⟩ := hx
  have hfloor : ⌊(x + 180) / 360⌋ = 0 := by
    rw [Int.floor_eq_iff]
    constructor
    · push_cast
      linarith
    · push_cast
      linarith
  unfold wrap_deg
  rw [hfloor]
  push_cast
  ring

lemma wrap_deg_idem (deg : ℝ) : wrap_deg (wrap_deg deg) = wrap_deg deg :=
  wrap_deg_eq_self_of_mem (wrap_deg_mem_Ico deg)

lemma wrap_deg_180 : wrap_deg 180 = -180 := by
  have hfloor : ⌊((180 : ℝ) + 180) / 360⌋ = 1 := by
    rw [Int.floor_eq_iff]
    norm_num
  unfold wrap_deg
  rw [hfloor]
  norm_num

/-! ## `_SampleRing` (server.py:120-146)

A bounded chunked buffer.  Sample values are modelled as integers (the
float32 contents play no role in the ring's bookkeeping); `parts` is the
deque of chunks and `total_samples` the running count. -/

structure SampleRing where
  max_samples : ℕ
  parts : List (List ℤ)
  total_samples : ℕ

/-- A fresh ring, `_SampleRing(max_samples)`. -/
def SampleRing.mk0 (m : ℕ) : SampleRing := ⟨m, [], 0⟩

/-- The `while self._total_samples > self._max_samples and self._parts:`
eviction loop at the end of `append`. -/
def evictLoop (maxS : ℕ) : List (List ℤ) → ℕ → List (List ℤ) × ℕ
  | [], total => ([], total)
  | p :: ps, total =>
      if maxS < total then evictLoop maxS ps (total - p.length)
      else (p :: ps, total)

/-- `_SampleRing.append` (server.py:126-139). -/
def SampleRing.append (r : SampleRing) (samples : List ℤ) : SampleRing :=
  if r.max_samples ≤ 0 then r
  else if samples.length = 0 then r
  else
    let s := if r.max_samples < samples.length
      then samples.drop (samples.length - r.max_samples)
      else samples
    let out := evictLoop r.max_samples (r.parts ++ [s]) (r.total_samples + s.length)
    ⟨r.max_samples, out.1, out.2⟩

/-- `_SampleRing.get` (server.py:141-146): snapshot of the contents. -/
def SampleRing.get (r : SampleRing) : List ℤ :=
  if r.total_samples ≤ 0 ∨ r.parts = [] then [] else r.parts.flatten

/-- Bookkeeping invariant maintained by the ring: `total_samples` is the
sum of the chunk lengths, it never exceeds the capacity, and every
stored chunk is nonempty (empty blocks are rejected on `append`). -/
def SampleRing.Wf (r : SampleRing) : Prop :=
  r.total_samples = (r.parts.map List.length).sum ∧
  r.total_samples ≤ r.max_samples ∧
  ∀ c ∈ r.parts, c ≠ []

/-- Feeding a whole sequence of blocks into the ring. -/
def runAppends (r : SampleRing) (blocks : List (List ℤ)) : SampleRing :=
  blocks.foldl SampleRing.append r

lemma evictLoop_sum (maxS : ℕ) :
    ∀ (parts : List (List ℤ)) (total : ℕ),
      total = (parts.map List.length).sum →
      (evictLoop maxS parts total).2 =
        ((evictLoop maxS parts total).1.map List.length).sum ∧
      (evictLoop maxS parts total).1.IsSuffix parts ∧
      (evictLoop maxS parts total).2 ≤ maxS := by
  intro parts
  induction parts with
  | nil =>
      intro total htotal
      simp [evictLoop] at htotal ⊢
      omega
  | cons p ps ih =>
      intro total htotal
      by_cases h : maxS < total
      · have hrec := ih (total - p.length)
        have hsum : total - p.length = (ps.map List.length).sum := by
          simp [List.sum_cons] at htotal
          omega
        have := hrec hsum
        simp only [evictLoop, if_pos h]
        refine ⟨this.1, ?_, this.2.2⟩
        exact this.2.1.trans (List.suffix_cons p ps)
      · simp only [evictLoop, if_neg h]
        refine ⟨htotal, List.suffix_refl _, by omega⟩

lemma get_eq_flatten {r : SampleRing}
    (hr : r.total_samples = (r.parts.map List.length).sum) :
    r.get = r.parts.flatten := by
  unfold SampleRing.get
  split_ifs with h
  · rcases h with h | h
    · have h0 : (r.parts.map List.length).sum = 0 := by rw [← hr]; omega
      have hlen : r.parts.flatten.length = 0 := by
        rw [List.length_flatten]; exact h0
      exact (List.length_eq_zero.mp hlen).symm
    · simp [h]
  · rfl

lemma trimmed_block_spec {r : SampleRing} (hmax : ¬ r.max_samples ≤ 0)
    {xs : List ℤ} (hxs : ¬ xs.length = 0) :
    let s := if r.max_samples < xs.length
      then xs.drop (xs.length - r.max_samples) else xs
    s.IsSuffix xs ∧ s ≠ [] := by
  intro s
  by_cases h3 : r.max_samples < xs.length
  · have hdrop : s = xs.drop (xs.length - r.max_samples) := by
      simp only [s, if_pos h3]
    constructor
    · rw [hdrop]; exact List.drop_suffix _ _
    · have hlen : s.length = r.max_samples := by
        rw [hdrop, List.length_drop]; omega
      intro hnil
      rw [hnil] at hlen
      simp at hlen
      omega
  · have hxx : s = xs := by simp only [s, if_neg h3]
    refine ⟨by rw [hxx], ?_⟩
    rw [hxx]
    intro hnil
    rw [hnil] at hxs
    simp at hxs

lemma append_wf {r : SampleRing} (hr : r.Wf) (xs : List ℤ) :
    (r.append xs).Wf := by
  unfold SampleRing.append
  by_cases h1 : r.max_samples ≤ 0
  · simpa [h1] using hr
  · by_cases h2 : xs.length = 0
    · simpa [h1, h2] using hr
    · simp only [if_neg h1, if_neg h2]
      obtain ⟨hsfx, hsne⟩ := @trimmed_block_spec r h1 xs h2
      set s := if r.max_samples < xs.length
        then xs.drop (xs.length - r.max_samples) else xs with hs
      have hsum : r.total_samples + s.length
          = ((r.parts ++ [s]).map List.length).sum := by
        simp [hr.1]
      obtain ⟨hsum', hsuffix, hle'⟩ := evictLoop_sum r.max_samples
        (r.parts ++ [s]) (r.total_samples + s.length) hsum
      refine ⟨hsum', hle', ?_⟩
      intro c hc
      have hmem : c ∈ r.parts ++ [s] := hsuffix.sublist.mem hc
      rcases List.mem_append.mp hmem with hmem | hmem
      · exact hr.2.2 c hmem
      · rcases List.mem_singleton.mp hmem with rfl
        exact hsne

lemma append_max_eq (r : SampleRing) (xs : List ℤ) :
    (r.append xs).max_samples = r.max_samples := by
  unfold SampleRing.append
  split_ifs <;> rfl

lemma flatten_suffix_of_suffix {l₁ l₂ : List (List ℤ)}
    (h : l₁.IsSuffix l₂) : l₁.flatten.IsSuffix l₂.flatten := by
  obtain ⟨t, rfl⟩ := h
  exact ⟨t.flatten, (List.flatten_append t l₁).symm⟩

lemma suffix_append_list {β : Type} {l m : List β} (h : l.IsSuffix m)
    (w : List β) : (l ++ w).IsSuffix (m ++ w) := by
  obtain ⟨t, rfl⟩ := h
  exact ⟨t, (List.append_assoc t l w).symm⟩

lemma suffix_concat_cases {β : Type} {l A : List β} {s : β}
    (h : l.IsSuffix (A ++ [s])) :
    l = [] ∨ ∃ qs, qs.IsSuffix A ∧ l = qs ++ [s] := by
  rcases eq_or_ne l [] with rfl | hne
  · exact Or.inl rfl
  · obtain ⟨t, ht⟩ := h
    right
    have hsplit : l.dropLast ++ [l.getLast hne] = l :=
      List.dropLast_append_getLast hne
    have ht' : (t ++ l.dropLast) ++ [l.getLast hne] = A ++ [s] := by
      rw [List.append_assoc, hsplit, ht]
    have hinj := List.append_inj' ht' (by simp)
    refine ⟨l.dropLast, ⟨t, hinj.1⟩, ?_⟩
    have hlast : l.getLast hne = s := by
      have := hinj.2
      simpa using this
    rw [← hlast]
    exact hsplit.symm

lemma append_get_suffix {r : SampleRing} (hr : r.Wf) (xs : List ℤ) :
    (r.append xs).get.IsSuffix (r.get ++ xs) := by
  have hwf' := append_wf hr xs
  rw [get_eq_flatten hwf'.1, get_eq_flatten hr.1]
  unfold SampleRing.append
  by_cases h1 : r.max_samples ≤ 0
  · -- capacity 0: ring never stores anything (total ≤ max = 0 ⇒ parts all empty)
    simp only [if_pos h1]
    have h0 : (r.parts.map List.length).sum = 0 := by
      have := hr.2.1
      rw [hr.1] at this
      omega
    have hlen : r.parts.flatten.length = 0 := by
      rw [List.length_flatten]; exact h0
    rw [List.length_eq_zero.mp hlen]
    exact List.nil_suffix
  · by_cases h2 : xs.length = 0
    · simp only [if_neg h1, if_pos h2]
      rw [List.length_eq_zero.mp h2]
      simp
    · simp only [if_neg h1, if_neg h2]
      obtain ⟨hsfx, hsne⟩ := @trimmed_block_spec r h1 xs h2
      set s := if r.max_samples < xs.length
        then xs.drop (xs.length - r.max_samples) else xs with hs
      have hsum : r.total_samples + s.length
          = ((r.parts ++ [s]).map List.length).sum := by
        simp [hr.1]
      obtain ⟨hsum', hsuffix, hle'⟩ := evictLoop_sum r.max_samples
        (r.parts ++ [s]) (r.total_samples + s.length) hsum
      rcases suffix_concat_cases hsuffix with hout | ⟨qs, hqs, hout⟩
      · simp only [hout]
        exact List.nil_suffix
      · simp only [hout]
        by_cases h3 : r.max_samples < xs.length
        · -- trimmed block: the eviction loop must have dropped every older
          -- chunk, because the trimmed block alone already fills capacity
          have hslen : s.length = r.max_samples := by
            rw [hs, if_pos h3, List.length_drop]; omega
          have hqs0 : qs = [] := by
            have hsum2 : ((qs ++ [s]).map List.length).sum ≤ r.max_samples := by
              rw [← hout, ← hsum']; exact hle'
            have : (qs.map List.length).sum + s.length ≤ r.max_samples := by
              simpa using hsum2
            have hq0 : (qs.map List.length).sum = 0 := by omega
            cases qs with
            | nil => rfl
            | cons q qs' =>
                exfalso
                have hqmem : q ∈ r.parts := hqs.sublist.mem (by simp)
                have hqne := hr.2.2 q hqmem
                rw [List.map_cons, List.sum_cons] at hq0
                exact hqne (List.length_eq_zero.mp (by omega))
          subst hqs0
          simp only [List.nil_append, List.flatten_cons, List.flatten_nil,
            List.append_nil]
          obtain ⟨t, ht⟩ := hsfx
          exact ⟨r.parts.flatten ++ t, by rw [List.append_assoc, ht]⟩
        · -- untrimmed block: the whole new block survives at the tail
          have hsxs : s = xs := by rw [hs, if_neg h3]
          have hqsf : qs.flatten.IsSuffix r.parts.flatten :=
            flatten_suffix_of_suffix hqs
          have := suffix_append_list hqsf xs
          simpa [hsxs] using this

lemma mk0_wf (M : ℕ) : (SampleRing.mk0 M).Wf := by
  refine ⟨rfl, Nat.zero_le _, ?_⟩
  intro c hc
  simp [SampleRing.mk0] at hc

lemma runAppends_invariant (blocks : List (List ℤ)) :
    ∀ r : SampleRing, r.Wf →
      (runAppends r blocks).Wf ∧
      (runAppends r blocks).max_samples = r.max_samples ∧
      (runAppends r blocks).get.IsSuffix (r.get ++ blocks.flatten) := by
  induction blocks with
  | nil =>
      intro r hwf
      exact ⟨hwf, rfl, by simp [runAppends]⟩
  | cons b bs ih =>
      intro r hwf
      have h1 := append_wf hwf b
      obtain ⟨ha, hm, hc⟩ := ih (r.append b) h1
      have hruns : runAppends r (b :: bs) = runAppends (r.append b) bs := rfl
      refine ⟨by rw [hruns]; exact ha, ?_, ?_⟩
      · rw [hruns, hm, append_max_eq]
      · have hstep := append_get_suffix hwf b
        have hmid := suffix_append_list hstep bs.flatten
        have := hc.trans hmid
        rw [hruns]
        simpa [List.append_assoc] using this

/-! ## Bounded queues with drop-oldest (`asyncio.Queue(maxsize=200)` plus
the push pattern at server.py:940-949 and 778-787)

`if q.full(): q.get_nowait(); dropped += 1` followed by
`q.put_nowait(frame)` with `dropped += 1` on `QueueFull`.  `full()` is
`0 < maxsize and maxsize <= qsize()`; `get_nowait` pops the head,
`put_nowait` appends at the tail. -/

def queuePushDropOldest {α : Type} (maxsize : ℕ) (q : List α) (dropped : ℕ)
    (x : α) : List α × ℕ :=
  if 0 < maxsize ∧ maxsize ≤ q.length then
    -- full(): get_nowait() evicts the head, then put_nowait(x)
    if maxsize = 0 ∨ q.tail.length < maxsize then (q.tail ++ [x], dropped + 1)
    else (q.tail, dropped + 1 + 1)
  else
    if maxsize = 0 ∨ q.length < maxsize then (q ++ [x], dropped)
    else (q, dropped + 1)

/-- One scheduling step of the stt queue: `some x` is a producer push
(with the drop-oldest policy above), `none` is a consumer `get()`. -/
def sttQueueStep {α : Type} (s : List α × ℕ) (op : Option α) : List α × ℕ :=
  match op with
  | some x => queuePushDropOldest 200 s.1 s.2 x
  | none => (s.1.tail, s.2)

/-- Running the stt queue from the empty initial state. -/
def runSttQueue {α : Type} (ops : List (Option α)) : List α × ℕ :=
  ops.foldl sttQueueStep ([], 0)

lemma queuePush_length_le {α : Type} (q : List α) (d : ℕ) (x : α)
    (h : q.length ≤ 200) :
    (queuePushDropOldest 200 q d x).1.length ≤ 200 := by
  unfold queuePushDropOldest
  split_ifs <;>
    simp only [List.length_append, List.length_tail, List.length_cons,
      List.length_nil] <;>
    omega

lemma queuePush_dropped_mono {α : Type} (q : List α) (d : ℕ) (x : α) :
    d ≤ (queuePushDropOldest 200 q d x).2 := by
  unfold queuePushDropOldest
  split_ifs <;> dsimp only <;> omega

lemma queuePush_full_evicts {α : Type} (q : List α) (d : ℕ) (x : α)
    (h : q.length = 200) :
    queuePushDropOldest 200 q d x = (q.tail ++ [x], d + 1) := by
  unfold queuePushDropOldest
  have hc : (0 < 200 ∧ 200 ≤ q.length) := by omega
  rw [if_pos hc]
  have htail : q.tail.length = 199 := by rw [List.length_tail, h]
  have hp : (200 : ℕ) = 0 ∨ q.tail.length < 200 := Or.inr (by omega)
  rw [if_pos hp]

lemma runSttQueue_length_le {α : Type} (ops : List (Option α)) :
    (runSttQueue ops).1.length ≤ 200 := by
  suffices h : ∀ s : List α × ℕ, s.1.length ≤ 200 →
      (ops.foldl sttQueueStep s).1.length ≤ 200 by
    exact h ([], 0) (by simp)
  induction ops with
  | nil => intro s hs; simpa using hs
  | cons op ops ih =>
      intro s hs
      refine ih (sttQueueStep s op) ?_
      match op with
      | some x => exact queuePush_length_le s.1 s.2 x hs
      | none =>
          simp only [sttQueueStep]
          rw [List.length_tail]
          omega

/-! ## A model of the JSON values crossing the websocket

`protocol.loads` is `json.loads`; parsed values are dynamic, so the
handlers coerce fields with Python `int`/`float`/`str` and rely on
Python truthiness for `x or default` fallbacks. -/

inductive Json where
  | null
  | bool (b : Bool)
  | num (q : ℚ)
  | str (s : String)
  | arr (xs : List Json)
  | obj (fields : List (String × Json))

/-- Python truthiness of a JSON-decoded value. -/
def Json.truthy : Json → Bool
  | .null => false
  | .bool b => b
  | .num q => decide (q ≠ 0)
  | .str s => decide (s ≠ "")
  | .arr xs => !xs.isEmpty
  | .obj fs => !fs.isEmpty

/-- `d.get(key)` when `d` is a `dict`; `none` (AttributeError) when the
receiver is not a `dict`. -/
def jGetField (j : Json) (key : String) : Option (Option Json) :=
  match j with
  | .obj fs => some (fs.lookup key)
  | _ => none

/-- `d.get(key)` assuming the receiver is already known to be a `dict`
(missing key gives `None`). -/
def jGetD (j : Json) (key : String) : Option Json :=
  match j with
  | .obj fs => fs.lookup key
  | _ => none

/-- `value or default` over an optional JSON field. -/
def jsonOr (v : Option Json) (dflt : Json) : Json :=
  match v with
  | some j => if j.truthy then j else dflt
  | none => dflt

/-- Python `str(x)` on a JSON-decoded value (only the `str` branch is
ever compared against protocol constants). -/
def pyStr : Json → String
  | .str s => s
  | .null => "None"
  | .bool true => "True"
  | .bool false => "False"
  | .num q => toString q
  | .arr _ => "[list]"
  | .obj _ => "dict"

/-- Digits-only string to a number (`none` when empty or non-digit). -/
def natOfDigits (cs : List Char) : ℕ :=
  cs.foldl (fun acc c => acc * 10 + (c.toNat - '0'.toNat)) 0

def digitsToNat? (cs : List Char) : Option ℕ :=
  if cs.isEmpty ∨ ¬ cs.all Char.isDigit then none else some (natOfDigits cs)

/-- Python `int(s)` on a string: optional sign plus decimal digits. -/
def pyIntOfString (s : String) : Option ℤ :=
  match s.trim.toList with
  | '-' :: rest => (digitsToNat? rest).map (fun n => -(n : ℤ))
  | '+' :: rest => (digitsToNat? rest).map (fun n => (n : ℤ))
  | cs => (digitsToNat? cs).map (fun n => (n : ℤ))

/-- Python `float(s)` on a string: optional sign, digits, optional
fractional part (exponent forms are not used by any client). -/
def pyFloatOfString (s : String) : Option ℚ :=
  let cs := s.trim.toList
  let sgn : ℚ × List Char :=
    match cs with
    | '-' :: r => (-1, r)
    | '+' :: r => (1, r)
    | r => (1, r)
  let intPart := sgn.2.takeWhile Char.isDigit
  let after := sgn.2.drop intPart.length
  match after with
  | [] => (digitsToNat? intPart).map (fun n => sgn.1 * n)
  | '.' :: frac =>
      if frac.all Char.isDigit ∧ (¬ intPart.isEmpty ∨ ¬ frac.isEmpty) then
        some (sgn.1 * ((natOfDigits intPart : ℚ) +
          (natOfDigits frac : ℚ) / ((10 : ℚ) ^ frac.length)))
      else none
  | _ => none

/-- Python `int(x)` truncates toward zero. -/
def pyTruncInt (q : ℚ) : ℤ :=
  if 0 ≤ q then ⌊q⌋ else -⌊-q⌋

/-- Python `int(x)` on a JSON-decoded value (`none` = `TypeError` /
`ValueError`). -/
def pyInt : Json → Option ℤ
  | .num q => some (pyTruncInt q)
  | .bool b => some (if b then 1 else 0)
  | .str s => pyIntOfString s
  | _ => none

/-- Python `float(x)` on a JSON-decoded value. -/
def pyFloat : Json → Option ℚ
  | .num q => some q
  | .bool b => some (if b then 1 else 0)
  | .str s => pyFloatOfString s
  | _ => none

/-! ## ESP32 audio ingress: hello phase (`_handle_esp32_audio`,
server.py:803-886) -/

structure Esp32AudioState where
  device_id : String
  role : String
  sample_rate_hz : ℤ
  channels : ℤ
  frame_ms : ℤ
  bytes_per_frame : ℤ
  stt_q : List (List ℤ)
  analysis_q : List (List ℤ)
  last_rms : ℝ
  last_seen : ℝ
  dropped_frames : ℕ
  frames_received : ℕ
  bad_frame_sizes : ℕ

/-- The first websocket message of a connection. -/
inductive WsMessage where
  | text (raw : String)
  | binary (payload : List ℤ)

/-- Outcome of the hello phase. -/
inductive HelloOutcome where
  | closed (code : ℕ) (reason : String)
  | registered (role : String)
deriving DecidableEq

/-- The fields pulled out of a parsed ESP32 hello (server.py:818-827);
`none` models the `except` branch (any coercion raising). -/
structure Esp32Hello where
  audio_format : String
  sample_rate_hz : ℤ
  frame_ms : ℤ
  channels : ℤ
  fw_version : String
  role : String
  device_id : String

def esp32ExtractHello (j : Json) (query_device query_role : String) :
    Option Esp32Hello := do
  let audioRaw ← jGetField j "audio"
  let audio := jsonOr audioRaw (Json.obj [])
  let fmtRaw ← jGetField audio "format"
  let audio_format := pyStr (jsonOr fmtRaw (Json.str "pcm_s16le"))
  let srRaw ← jGetField audio "sampleRateHz"
  let sample_rate_hz ← pyInt (jsonOr srRaw (Json.num 16000))
  let fmRaw ← jGetField audio "frameMs"
  let frame_ms ← pyInt (jsonOr fmRaw (Json.num 20))
  let chRaw ← jGetField audio "channels"
  let channels ← pyInt (jsonOr chRaw (Json.num 1))
  let fwRaw ← jGetField j "fwVersion"
  let fw_version := pyStr (jsonOr fwRaw (Json.str ""))
  let roleRaw ← jGetField j "role"
  let role1 :=
    match roleRaw with
    | some v => if v.truthy then pyStr v else query_role
    | none => query_role
  let role := if role1 = "" then "unknown" else role1
  let devRaw ← jGetField j "deviceId"
  let dev1 :=
    match devRaw with
    | some v => if v.truthy then pyStr v else query_device
    | none => query_device
  let device_id := if dev1 = "" then "unknown" else dev1
  pure ⟨audio_format, sample_rate_hz, frame_ms, channels, fw_version,
    role, device_id⟩

/-- `dict[key] = value` on the by-role map. -/
def assocSet (m : List (String × Esp32AudioState)) (k : String)
    (v : Esp32AudioState) : List (String × Esp32AudioState) :=
  (k, v) :: m.filter (fun p => p.1 ≠ k)

/-- The whole hello phase of `_handle_esp32_audio`: receive one message;
non-text closes 1003 "Expected JSON hello"; unparseable JSON (or a
coercion raising inside the `try`) closes 1003 "Invalid hello";
otherwise a fresh `Esp32AudioState` is installed at the hello role. -/
def esp32HelloStep (loads : String → Option Json)
    (byRole : List (String × Esp32AudioState))
    (query_device query_role : String) (msg : WsMessage) (now : ℝ) :
    List (String × Esp32AudioState) × HelloOutcome :=
  match msg with
  | .binary _ => (byRole, .closed 1003 "Expected JSON hello")
  | .text raw =>
    match loads raw with
    | none => (byRole, .closed 1003 "Invalid hello")
    | some j =>
      match esp32ExtractHello j query_device query_role with
      | none => (byRole, .closed 1003 "Invalid hello")
      | some h =>
          let samples_per_frame :=
            pyTruncInt ((h.sample_rate_hz : ℚ) * ((h.frame_ms : ℚ) / 1000))
          let bytes_per_frame := samples_per_frame * 2 * max 1 h.channels
          let st : Esp32AudioState :=
            { device_id := h.device_id, role := h.role,
              sample_rate_hz := h.sample_rate_hz, channels := h.channels,
              frame_ms := h.frame_ms, bytes_per_frame := bytes_per_frame,
              stt_q := [], analysis_q := [], last_rms := 0, last_seen := now,
              dropped_frames := 0, frames_received := 0, bad_frame_sizes := 0 }
          (assocSet byRole h.role st, .registered h.role)

/-! ## Android `/stt` phone-mic ingress (`_handle_android_stt`,
server.py:618-801)

The server forces stereo at registration (`_android_mic_force_channels
= 2`, server.py:161) and re-detects mono/stereo from the byte size of
incoming frames.  Binary frames are int16 little-endian PCM; a frame is
modelled as its list of int16 samples, so its byte length is twice the
list length. -/

structure AndroidMicState where
  device_id : String
  sample_rate_hz : ℤ
  channels : ℤ
  frame_ms : ℤ
  bytes_per_frame : ℤ
  mono_bytes_per_frame : ℤ
  stt_q : List (List ℤ)
  analysis_q : List (List ℤ)
  last_rms : ℝ
  last_rms_left : ℝ
  last_rms_right : ℝ
  last_seen : ℝ
  dropped_frames : ℕ

/-- `self._android_mic_force_channels` (server.py:161). -/
def android_mic_force_channels : ℤ := 2

/-- The fields pulled out of a parsed `/stt` hello
(server.py:633-638). -/
structure AndroidHello where
  audio_format : String
  sample_rate_hz : ℤ
  channels : ℤ
  frame_ms : ℤ
  device_id : String

/-- Extraction of a text `/stt` message (server.py:630-638).  Outer
`none` models an uncaught coercion exception (the extraction is not
inside a `try`, so it kills the handler); `some none` means the message
is not a hello and is skipped. -/
def androidExtractHello (j : Json) : Option (Option AndroidHello) := do
  let tyRaw ← jGetField j "type"
  let isHello : Bool :=
    match tyRaw with
    | some (Json.str s) => s = "audio.hello" || s = "hello"
    | _ => false
  if isHello then do
    let audioRaw ← jGetField j "audio"
    let audio := jsonOr audioRaw (Json.obj [])
    let fmtRaw ← jGetField audio "format"
    let audio_format := pyStr (jsonOr fmtRaw (Json.str "pcm_s16le"))
    let srRaw ← jGetField audio "sampleRateHz"
    let sample_rate_hz ← pyInt (jsonOr srRaw (Json.num 16000))
    let chRaw ← jGetField audio "channels"
    let channels ← pyInt (jsonOr chRaw (Json.num 1))
    let fmRaw ← jGetField audio "frameMs"
    let frame_ms ← pyInt (jsonOr fmRaw (Json.num 20))
    let devRaw ← jGetField j "deviceId"
    let device_id := pyStr (jsonOr devRaw (Json.str "android"))
    pure (some ⟨audio_format, sample_rate_hz, channels, frame_ms, device_id⟩)
  else
    pure none

/-- Registration decisions of the hello branch (server.py:639-668).
Any rejected hello (`continue`) leaves the per-connection state
untouched; an accepted hello installs a fresh state with the channel
count forced to `_android_mic_force_channels`. -/
def androidHelloApply (force : ℤ) (st : Option AndroidMicState)
    (h : AndroidHello) (now : ℝ) : Option AndroidMicState :=
  if h.audio_format ≠ "pcm_s16le" then st
  else if h.sample_rate_hz ≠ 16000 then st
  else if ¬ (h.channels = 1 ∨ h.channels = 2) then st
  else
    let channels :=
      if (force = 1 ∨ force = 2) ∧ h.channels ≠ force then force
      else h.channels
    let samples_per_frame :=
      pyTruncInt ((h.sample_rate_hz : ℚ) * ((h.frame_ms : ℚ) / 1000))
    let mono_bytes_per_frame := samples_per_frame * 2
    some
      { device_id := h.device_id, sample_rate_hz := h.sample_rate_hz,
        channels := channels, frame_ms := h.frame_ms,
        bytes_per_frame := mono_bytes_per_frame * channels,
        mono_bytes_per_frame := mono_bytes_per_frame,
        stt_q := [], analysis_q := [], last_rms := 0, last_rms_left := 0,
        last_rms_right := 0, last_seen := now, dropped_frames := 0 }

/-- A text message on `/stt`: parse skip / hello handling; `none` is an
uncaught exception. -/
def androidHelloStep (force : ℤ) (st : Option AndroidMicState) (j : Json)
    (now : ℝ) : Option (Option AndroidMicState) :=
  (androidExtractHello j).map fun oh =>
    match oh with
    | none => st
    | some h => androidHelloApply force st h now

/-- Even-index samples (`pcm[0::2]`, the interleaved left channel). -/
def evenIdx : List ℤ → List ℤ
  | [] => []
  | [a] => [a]
  | a :: _ :: rest => a :: evenIdx rest

/-- Odd-index samples (`pcm[1::2]`, the interleaved right channel). -/
def oddIdx : List ℤ → List ℤ
  | [] => []
  | [_] => []
  | _ :: b :: rest => b :: oddIdx rest

/-- `float(np.sqrt(np.mean(x * x)))`. -/
noncomputable def rmsOf (xs : List ℚ) : ℝ :=
  Real.sqrt ((((xs.map (fun v => v * v)).sum / (xs.length : ℚ) : ℚ) : ℝ))

/-- Analysis-queue push: drop-oldest without a drop counter
(server.py:789-797). -/
def analysisPush (q : List (List ℤ)) (x : List ℤ) : List (List ℤ) :=
  (queuePushDropOldest 200 q 0 x).1

/-- What one binary `/stt` frame does to the connection state and the
shared rings/queues. -/
structure AndroidFrameEffects where
  state : AndroidMicState
  bl_append : List ℚ
  br_append : List ℚ
  stt_push : Option (List ℤ)
  analysis_push : Option (List ℤ)

/-- The default best-effort state installed when a binary frame arrives
with no (valid) hello seen yet (server.py:681-704). -/
def androidDefaultState (force : ℤ) (now : ℝ) : AndroidMicState :=
  let channels : ℤ := if force = 1 ∨ force = 2 then force else 1
  let mono_bytes_per_frame := pyTruncInt ((16000 : ℚ) * ((20 : ℚ) / 1000)) * 2
  { device_id := "android", sample_rate_hz := 16000, channels := channels,
    frame_ms := 20, bytes_per_frame := mono_bytes_per_frame * channels,
    mono_bytes_per_frame := mono_bytes_per_frame,
    stt_q := [], analysis_q := [], last_rms := 0, last_rms_left := 0,
    last_rms_right := 0, last_seen := now, dropped_frames := 0 }

/-- Processing one binary frame on `/stt` (server.py:678-797): install a
best-effort default state if none, refresh `last_seen`, auto-redetect
mono/stereo from the byte size, compute RMS values, append float samples
to the back-left/back-right rings, and push the (downmixed) frame into
the stt and analysis queues with drop-oldest policy. -/
noncomputable def androidFrameStep (force : ℤ) (st : Option AndroidMicState)
    (frame : List ℤ) (now : ℝ) : AndroidFrameEffects :=
  let state0 :=
    match st with
    | some s => s
    | none => androidDefaultState force now
  let s1 := { state0 with last_seen := now }
  let msgBytes : ℤ := 2 * frame.length
  let s2 :=
    if s1.channels = 1 ∧ msgBytes = s1.mono_bytes_per_frame * 2 then
      { s1 with
          channels := 2,
          bytes_per_frame := s1.mono_bytes_per_frame * 2 }
    else if s1.channels = 2 ∧ msgBytes = s1.mono_bytes_per_frame then
      { s1 with
          channels := 1,
          bytes_per_frame := s1.mono_bytes_per_frame }
    else s1
  -- a size mismatch beyond the two auto-detected shapes is only logged
  if frame.length = 0 then
    ⟨s2, [], [], none, none⟩
  else if s2.channels = 2 then
    let left := evenIdx frame
    let right := oddIdx frame
    let n := min left.length right.length
    if n = 0 then ⟨s2, [], [], none, none⟩
    else
      let leftN := left.take n
      let rightN := right.take n
      let float_left := leftN.map (fun v => (v : ℚ) / 32768)
      let float_right := rightN.map (fun v => (v : ℚ) / 32768)
      let downmix := (float_left.zip float_right).map
        (fun p => (1 / 2 : ℚ) * (p.1 + p.2))
      let frame_out := (leftN.zip rightN).map
        (fun p => Int.fdiv (p.1 + p.2) 2)
      let s3 := { s2 with
        last_rms_left := rmsOf float_left,
        last_rms_right := rmsOf float_right,
        last_rms := rmsOf downmix }
      let pushed := queuePushDropOldest 200 s3.stt_q s3.dropped_frames frame_out
      let s4 := { s3 with
        stt_q := pushed.1,
        dropped_frames := pushed.2,
        analysis_q := analysisPush s3.analysis_q frame_out }
      ⟨s4, float_left, float_right, some frame_out, some frame_out⟩
  else
    let float_pcm := frame.map (fun v => (v : ℚ) / 32768)
    let s3 := { s2 with
      last_rms := rmsOf float_pcm,
      last_rms_left := rmsOf float_pcm,
      last_rms_right := rmsOf float_pcm }
    let pushed := queuePushDropOldest 200 s3.stt_q s3.dropped_frames frame
    let s4 := { s3 with
      stt_q := pushed.1,
      dropped_frames := pushed.2,
      analysis_q := analysisPush s3.analysis_q frame }
    ⟨s4, float_pcm, float_pcm, some frame, some frame⟩

/-! ## `/events` `config.update` handling (`_handle_android_events`,
server.py:578-605)

The branch assigns the tuning knobs one after another with bare
`float(...)` coercions — there is no per-field `try`, so the first
coercion failure raises out of the message loop (killing the `/events`
handler for that connection); fields assigned before the failure stay
applied, fields after it are never reached.  Only the `keywords` field
is parsed tolerantly. -/

structure ServerConfig where
  alarm_rms_threshold : ℚ
  fire_ratio_threshold : ℚ
  horn_ratio_threshold : ℚ
  keyword_cooldown_s : ℚ
  esp32_gain_left : ℚ
  esp32_gain_right : ℚ
  yamnet_fire_threshold : ℚ
  yamnet_horn_threshold : ℚ
  yamnet_min_rms : ℚ
  keywords : List String
deriving DecidableEq

/-- The environment-default configuration (server.py:240-271). -/
def defaultServerConfig : ServerConfig :=
  { alarm_rms_threshold := 0.02, fire_ratio_threshold := 0.18,
    horn_ratio_threshold := 0.20, keyword_cooldown_s := 5,
    esp32_gain_left := 1, esp32_gain_right := 0.25,
    yamnet_fire_threshold := 0.25, yamnet_horn_threshold := 0.25,
    yamnet_min_rms := 0.008, keywords := [] }

/-- `float(obj.get(key, current))`: missing key keeps the current value,
a present value is coerced (and may raise). -/
def floatFieldOrKeep (j : Json) (key : String) (current : ℚ) : Option ℚ :=
  match jGetD j key with
  | none => some current
  | some v => pyFloat v

/-- `if obj.get(key) is not None: x = float(obj.get(key))`: a missing or
explicit-`null` field is skipped. -/
def floatFieldIfPresent (j : Json) (key : String) (current : ℚ) : Option ℚ :=
  match jGetD j key with
  | none => some current
  | some Json.null => some current
  | some v => pyFloat v

/-- `" ".join(k.strip().lower().split())`. -/
def normalizeKeyword (k : String) : String :=
  " ".intercalate
    (((k.trim.toLower).split Char.isWhitespace).filter (fun w => w ≠ ""))

/-- The keyword list cleaning loop (server.py:596-605). -/
def cleanKeywords (v : Json) (current : List String) : List String :=
  match v with
  | .arr kws =>
      ((kws.filterMap fun k =>
        match k with
        | .str s =>
            let kk := normalizeKeyword s
            if kk ≠ "" then some kk else none
        | _ => none)).take 50
  | _ => current

/-- The `config.update` branch, field by field in source order.  The
result pairs the configuration as mutated so far with `some message`
when a coercion raised (the exception then escapes the handler). -/
def configUpdate (cfg : ServerConfig) (j : Json) : ServerConfig × Option String :=
  match floatFieldOrKeep j "alarmRmsThreshold" cfg.alarm_rms_threshold with
  | none => (cfg, some "TypeError")
  | some a1 =>
  let cfg := { cfg with alarm_rms_threshold := a1 }
  match floatFieldOrKeep j "fireRatioThreshold" cfg.fire_ratio_threshold with
  | none => (cfg, some "TypeError")
  | some a2 =>
  let cfg := { cfg with fire_ratio_threshold := a2 }
  match floatFieldOrKeep j "hornRatioThreshold" cfg.horn_ratio_threshold with
  | none => (cfg, some "TypeError")
  | some a3 =>
  let cfg := { cfg with horn_ratio_threshold := a3 }
  match floatFieldOrKeep j "keywordCooldownS" cfg.keyword_cooldown_s with
  | none => (cfg, some "TypeError")
  | some a4 =>
  let cfg := { cfg with keyword_cooldown_s := a4 }
  match floatFieldIfPresent j "esp32GainLeft" cfg.esp32_gain_left with
  | none => (cfg, some "TypeError")
  | some a5 =>
  let cfg := { cfg with esp32_gain_left := a5 }
  match floatFieldIfPresent j "esp32GainRight" cfg.esp32_gain_right with
  | none => (cfg, some "TypeError")
  | some a6 =>
  let cfg := { cfg with esp32_gain_right := a6 }
  let cfg := { cfg with
    esp32_gain_left := max 0 cfg.esp32_gain_left,
    esp32_gain_right := max 0 cfg.esp32_gain_right }
  match floatFieldIfPresent j "yamnetFireThreshold" cfg.yamnet_fire_threshold with
  | none => (cfg, some "TypeError")
  | some a7 =>
  let cfg := { cfg with yamnet_fire_threshold := a7 }
  match floatFieldIfPresent j "yamnetHornThreshold" cfg.yamnet_horn_threshold with
  | none => (cfg, some "TypeError")
  | some a8 =>
  let cfg := { cfg with yamnet_horn_threshold := a8 }
  match floatFieldIfPresent j "yamnetMinRms" cfg.yamnet_min_rms with
  | none => (cfg, some "TypeError")
  | some a9 =>
  let cfg := { cfg with yamnet_min_rms := a9 }
  let cfg :=
    match jGetD j "keywords" with
    | some v => { cfg with keywords := cleanKeywords v cfg.keywords }
    | none => cfg
  (cfg, none)

/-! ## Direction loop fusion (`_direction_loop`, server.py:1219-1350)

One 20 Hz tick's fusion-mode selection and raw direction/intensity
computation (the part between the freshness gates and the smoothing
step).  `np.clip`, `np.sign`, `np.arctan2`, `np.degrees` and the
float-exponent power are modelled over ℝ. -/

/-- `np.clip(x, lo, hi)`. -/
noncomputable def pyclip (x lo hi : ℝ) : ℝ := min (max x lo) hi

/-- `np.arctan2(y, x)`. -/
noncomputable def np_atan2 (y x : ℝ) : ℝ :=
  if 0 < x then Real.arctan (y / x)
  else if x < 0 then
    (if y < 0 then Real.arctan (y / x) - Real.pi
     else Real.arctan (y / x) + Real.pi)
  else if 0 < y then Real.pi / 2
  else if y < 0 then -(Real.pi / 2)
  else 0

/-- `HudServer._shape_balance` (server.py:2080-2087). -/
noncomputable def shape_balance (back_balance_exp balance : ℝ) : ℝ :=
  let b := min (max balance (-1)) 1
  let e := min (max back_balance_exp 0.1) 1
  (if 0 < b then (1 : ℝ) else if b < 0 then -1 else 0) * |b| ^ e

/-- The direction-tuning knobs read from the environment
(server.py:179-197). -/
structure DirConfig where
  noise_floor : ℝ
  gain_quad : ℝ
  gain_lr : ℝ
  gain_mono : ℝ
  back_balance_gain_deg : ℝ
  back_balance_exp : ℝ
  hybrid_front_back_gain : ℝ

/-- The documented defaults. -/
noncomputable def defaultDirConfig : DirConfig :=
  { noise_floor := 0.002, gain_quad := 4.5, gain_lr := 6, gain_mono := 6,
    back_balance_gain_deg := 150, back_balance_exp := 0.8,
    hybrid_front_back_gain := 1 }

structure FrontMicView where
  last_rms : ℝ
  last_seen : ℝ

structure PhoneMicView where
  channels : ℤ
  last_rms : ℝ
  last_rms_left : ℝ
  last_rms_right : ℝ
  last_seen : ℝ

/-- What the direction loop reads from the shared audio state. -/
structure MicView where
  front_left : Option FrontMicView
  front_right : Option FrontMicView
  mic : Option PhoneMicView

open Classical in
/-- Fusion-mode selection for one tick (server.py:1236-1319): returns
`some (source, raw_direction_deg, intensity)`, or `none` when no mic is
fresh (the loop `continue`s without publishing). -/
noncomputable def directionFusion (cfg : DirConfig) (v : MicView)
    (now : ℝ) : Option (String × ℝ × ℝ) :=
  let freshF : Option FrontMicView → Bool := fun o =>
    match o with
    | some s => decide (now - s.last_seen < 1)
    | none => false
  let has_front := freshF v.front_left && freshF v.front_right
  let fl : ℝ :=
    match v.front_left with
    | some s => if has_front then max 0 s.last_rms else 0
    | none => 0
  let fr : ℝ :=
    match v.front_right with
    | some s => if has_front then max 0 s.last_rms else 0
    | none => 0
  let micF : Option PhoneMicView :=
    match v.mic with
    | some m => if now - m.last_seen < 1 then some m else none
    | none => none
  let has_back :=
    match micF with
    | some m => decide (m.channels = 2)
    | none => false
  let bl : ℝ :=
    match micF with
    | some m => if has_back then max 0 m.last_rms_left else 0
    | none => 0
  let br : ℝ :=
    match micF with
    | some m => if has_back then max 0 m.last_rms_right else 0
    | none => 0
  if has_front && has_back then
    let eps : ℝ := 1e-6
    let back_total := bl + br
    let front_total := fl + fr
    let x_balance := (br - bl) / (back_total + eps)
    let y_balance := (front_total - back_total) / (front_total + back_total + eps)
    let x_balance := pyclip x_balance (-1) 1
    let y_balance := y_balance * cfg.hybrid_front_back_gain
    let y_balance := pyclip y_balance (-1) 1
    let raw := np_atan2 x_balance y_balance * (180 / Real.pi)
    let total := max 0 (fl + fr + bl + br - cfg.noise_floor)
    some ("quad", raw, pyclip (total * cfg.gain_quad) 0 1)
  else if has_front then
    let total := fl + fr + 1e-6
    let balance := (fr - fl) / total
    let raw := pyclip (balance * 90) (-90) 90
    let total := max 0 (total - cfg.noise_floor)
    some ("front", raw, pyclip (total * cfg.gain_lr) 0 1)
  else if has_back then
    let total := bl + br + 1e-6
    let balance := (br - bl) / total
    let gain := pyclip cfg.back_balance_gain_deg 0 170
    let shaped := shape_balance cfg.back_balance_exp balance
    let raw := wrap_deg (180 - shaped * gain)
    let total := max 0 (total - cfg.noise_floor)
    some ("back", raw, pyclip (total * cfg.gain_lr) 0 1)
  else
    let frCase : Option (String × ℝ × ℝ) :=
      match v.front_right with
      | some s =>
          if now - s.last_seen < 1 then
            some ("front", 0,
              pyclip (max 0 (s.last_rms - cfg.noise_floor) * cfg.gain_mono) 0 1)
          else none
      | none => none
    match micF with
    | some m =>
        some ("back", 180,
          pyclip (max 0 (m.last_rms - cfg.noise_floor) * cfg.gain_mono) 0 1)
    | none =>
        match v.front_left with
        | some s =>
            if now - s.last_seen < 1 then
              some ("front", 0,
                pyclip (max 0 (s.last_rms - cfg.noise_floor) * cfg.gain_mono) 0 1)
            else frCase
        | none => frCase

/-- Raw direction of a published fusion result (0 when none). -/
noncomputable def rawOf (o : Option (String × ℝ × ℝ)) : ℝ :=
  match o with
  | some r => r.2.1
  | none => 0

/-- Source tag of a published fusion result. -/
def sourceOf (o : Option (String × ℝ × ℝ)) : Option String :=
  match o with
  | some r => some r.1
  | none => none

/-- The C3 scenario: only the phone's stereo channels fresh, band
energies `bl = 1`, `br = 0`. -/
noncomputable def backOnlyView : MicView :=
  { front_left := none, front_right := none,
    mic := some { channels := 2, last_rms := 0.5, last_rms_left := 1,
                  last_rms_right := 0, last_seen := 0 } }

lemma wrap_deg_eq_sub_360 {x : ℝ} (h1 : 180 ≤ x) (h2 : x < 540) :
    wrap_deg x = x - 360 := by
  have hfloor : ⌊(x + 180) / 360⌋ = 1 := by
    rw [Int.floor_eq_iff]
    push_cast
    constructor
    · linarith
    · linarith
  unfold wrap_deg
  rw [hfloor]
  push_cast
  ring

lemma backOnly_fusion_eval :
    directionFusion defaultDirConfig backOnlyView 0 =
      some ("back",
        wrap_deg (180 + 150 * ((1000000 / 1000001 : ℝ) ^ (0.8 : ℝ))), 1) := by
  unfold directionFusion backOnlyView defaultDirConfig
  norm_num [shape_balance, pyclip]
  congr 1
  rw [abs_of_pos (by norm_num)]
  ring

lemma rpow_bounds :
    (1000000 / 1000001 : ℝ) ≤ (1000000 / 1000001 : ℝ) ^ (0.8 : ℝ) ∧
    (1000000 / 1000001 : ℝ) ^ (0.8 : ℝ) < 1 := by
  constructor
  · have h : (1000000 / 1000001 : ℝ) ^ (1 : ℝ) ≤
        (1000000 / 1000001 : ℝ) ^ (0.8 : ℝ) :=
      Real.rpow_le_rpow_of_exponent_ge (by norm_num) (by norm_num)
        (by norm_num)
    rwa [Real.rpow_one] at h
  · exact Real.rpow_lt_one (by norm_num) (by norm_num) (by norm_num)

/-- The C4 scenario: only a mono phone mic fresh. -/
noncomputable def monoPhoneView : MicView :=
  { front_left := none, front_right := none,
    mic := some { channels := 1, last_rms := 0.2, last_rms_left := 0.2,
                  last_rms_right := 0.2, last_seen := 0 } }

/-! ## Radar track emit (`_emit_radar_tracks`, server.py:1572-1604)

Prune/decay the live tracks and emit the top-N dots by display
intensity.  The track table is a dict iterated in insertion order;
it is modelled as a list. -/

structure RadarTrack where
  track_id : ℕ
  freq_hz : ℝ
  intensity : ℝ
  torso_direction_deg : ℝ
  last_seen : ℝ

structure RadarDot where
  trackId : ℕ
  freqHz : ℝ
  directionDeg : ℝ
  torsoDirectionDeg : ℝ
  intensity : ℝ
  radarX : ℝ
  radarY : ℝ

structure UiMap where
  radarX : ℝ
  radarY : ℝ
  glowEdge : String
  glowStrength : ℝ

open Classical in
/-- `HudServer._direction_to_ui` (server.py:1973-1994). -/
noncomputable def direction_to_ui (direction_deg intensity : ℝ) : UiMap :=
  let theta := direction_deg * (Real.pi / 180)
  let radius := pyclip intensity 0 1
  { radarX := Real.sin theta * radius,
    radarY := Real.cos theta * radius,
    glowEdge :=
      if -45 ≤ direction_deg ∧ direction_deg ≤ 45 then "top"
      else if 45 < direction_deg ∧ direction_deg < 135 then "right"
      else if -135 < direction_deg ∧ direction_deg < -45 then "left"
      else "bottom",
    glowStrength := pyclip intensity 0 1 }

open Classical in
/-- One loop iteration of `_emit_radar_tracks`: `none` when the track is
popped (stale or faint), otherwise the surviving track with its dot. -/
noncomputable def emitStep (decay_tau min_intensity now delta_yaw : ℝ)
    (tr : RadarTrack) : Option (RadarTrack × RadarDot) :=
  let age := now - tr.last_seen
  if 3 < age then none
  else
    let decay := Real.exp (-(age / max 0.1 decay_tau))
    let display_i := tr.intensity * decay
    if display_i < max 0 min_intensity then none
    else
      let dir_head := wrap_deg (tr.torso_direction_deg - delta_yaw)
      let ui := direction_to_ui dir_head display_i
      some (tr,
        { trackId := tr.track_id,
          freqHz := tr.freq_hz,
          directionDeg := dir_head,
          torsoDirectionDeg := tr.torso_direction_deg,
          intensity := display_i,
          radarX := ui.radarX,
          radarY := ui.radarY })

open Classical in
/-- `_emit_radar_tracks`: returns the surviving track table and the dot
list, sorted by descending display intensity and truncated to
`max 1 radar_max_dots`. -/
noncomputable def emitRadarTracks (decay_tau min_intensity : ℝ)
    (radar_max_dots : ℕ) (tracks : List RadarTrack) (now delta_yaw : ℝ) :
    List RadarTrack × List RadarDot :=
  let pairs := tracks.filterMap (emitStep decay_tau min_intensity now delta_yaw)
  let dots := pairs.map Prod.snd
  let sorted := dots.mergeSort (fun a b => decide (b.intensity ≤ a.intensity))
  (pairs.map Prod.fst, sorted.take (max 1 radar_max_dots))

lemma emitStep_some_elim {decay_tau min_intensity now delta_yaw : ℝ}
    {tr : RadarTrack} {p : RadarTrack × RadarDot}
    (h : emitStep decay_tau min_intensity now delta_yaw tr = some p) :
    p.1 = tr ∧ now - tr.last_seen ≤ 3 ∧
    p.2.intensity = tr.intensity *
      Real.exp (-((now - tr.last_seen) / max 0.1 decay_tau)) ∧
    max 0 min_intensity ≤ p.2.intensity := by
  unfold emitStep at h
  simp only [] at h
  by_cases h1 : 3 < now - tr.last_seen
  · rw [if_pos h1] at h
    exact absurd h (by simp)
  · rw [if_neg h1] at h
    by_cases h2 : tr.intensity *
        Real.exp (-((now - tr.last_seen) / max 0.1 decay_tau)) <
        max 0 min_intensity
    · rw [if_pos h2] at h
      exact absurd h (by simp)
    · rw [if_neg h2] at h
      have h3 := Option.some_injective _ h
      subst h3
      exact ⟨rfl, by linarith, rfl, not_lt.mp h2⟩

lemma emitStep_none_stale {decay_tau min_intensity now delta_yaw : ℝ}
    {tr : RadarTrack} (h : 3 < now - tr.last_seen) :
    emitStep decay_tau min_intensity now delta_yaw tr = none := by
  unfold emitStep
  rw [if_pos h]

lemma emitStep_none_faint {decay_tau min_intensity now delta_yaw : ℝ}
    {tr : RadarTrack} (h1 : now - tr.last_seen ≤ 3)
    (h2 : tr.intensity *
      Real.exp (-((now - tr.last_seen) / max 0.1 decay_tau)) <
      max 0 min_intensity) :
    emitStep decay_tau min_intensity now delta_yaw tr = none := by
  unfold emitStep
  rw [if_neg (by linarith), if_pos h2]

lemma kept_mem_elim {decay_tau min_intensity : ℝ} {radar_max_dots : ℕ}
    {tracks : List RadarTrack} {now delta_yaw : ℝ} {tr : RadarTrack}
    (h : tr ∈ (emitRadarTracks decay_tau min_intensity radar_max_dots tracks
      now delta_yaw).1) :
    emitStep decay_tau min_intensity now delta_yaw tr ≠ none := by
  unfold emitRadarTracks at h
  simp only [List.mem_map, List.mem_filterMap] at h
  obtain ⟨p, ⟨tr0, _, hstep⟩, hfst⟩ := h
  have h1 := (emitStep_some_elim hstep).1
  rw [hfst] at h1
  subst h1
  simp [hstep]

end HudSpec

namespace HudSpecClaims

open HudSpec

/-- C1 counterexample: the claim `wrap_deg x ∈ (−180, 180]` fails at
`x = 180`: Python's `((180+180) % 360) - 180` is `-180`, which is not in
the half-open interval `(−180, 180]`. -/
theorem c1_wrap_deg_not_Ioc :
    wrap_deg 180 = -180 ∧ ¬ ((-180 : ℝ) < wrap_deg 180 ∧ wrap_deg 180 ≤ 180) := by
  refine ⟨wrap_deg_180, ?_⟩
  rw [wrap_deg_180]
  intro h
  exact lt_irrefl _ h.1

/-- C1 (amended): for every real input `x`, `_wrap_deg` returns a value
in the half-open interval `[−180, 180)` (closed at −180, open at +180),
and it is idempotent: `wrap_deg (wrap_deg x) = wrap_deg x`.  Every
stored angle is therefore normalized to `[−180°, +180°)`. -/
theorem c1_wrap_deg_range_idem (x : ℝ) :
    ((-180 : ℝ) ≤ wrap_deg x ∧ wrap_deg x < 180) ∧
      wrap_deg (wrap_deg x) = wrap_deg x := by
  obtain ⟨h1, h2⟩ := wrap_deg_mem_Ico x
  exact ⟨⟨h1, h2⟩, wrap_deg_idem x⟩

/-- C2: for every capacity `M` and every sequence of appended blocks,
the `_SampleRing` total sample count never exceeds `M`; `get()` returns
a suffix of the concatenation of all appended blocks (and the empty ring
yields a zero-length result); appending a zero-length block leaves the
ring unchanged. -/
theorem c2_sampleRing_capacity_suffix_noop (M : ℕ) (blocks : List (List ℤ)) :
    (runAppends (SampleRing.mk0 M) blocks).total_samples ≤ M ∧
    (runAppends (SampleRing.mk0 M) blocks).get.IsSuffix blocks.flatten ∧
    (SampleRing.mk0 M).get = [] ∧
    (∀ r : SampleRing, r.append [] = r) := by
  obtain ⟨hwf, hmax, hsfx⟩ :=
    runAppends_invariant blocks (SampleRing.mk0 M) (mk0_wf M)
  refine ⟨?_, ?_, ?_, ?_⟩
  · have := hwf.2.1
    rwa [hmax] at this
  · simpa [SampleRing.mk0, SampleRing.get] using hsfx
  · simp [SampleRing.mk0, SampleRing.get]
  · intro r
    unfold SampleRing.append
    split_ifs with h1 h2
    · rfl
    · rfl
    all_goals exact absurd rfl h2

/-- C5: for every audio source the stt queue is bounded by 200 frames:
starting from empty, after any sequence of producer pushes (drop-oldest
policy) and consumer pops the queue length is at most 200; every push
leaves `dropped_frames` no smaller (monotonically non-decreasing); and a
push onto a full queue first evicts the oldest frame and increments
`dropped_frames` by exactly one. -/
theorem c5_stt_queue_bounded_drop_oldest {α : Type}
    (ops : List (Option α)) (q : List α) (d : ℕ) (x : α)
    (hq : q.length = 200) :
    (runSttQueue ops).1.length ≤ 200 ∧
    (∀ (q' : List α) (d' : ℕ) (x' : α),
      d' ≤ (queuePushDropOldest 200 q' d' x').2) ∧
    queuePushDropOldest 200 q d x = (q.tail ++ [x], d + 1) := by
  exact ⟨runSttQueue_length_le ops,
    fun q' d' x' => queuePush_dropped_mono q' d' x',
    queuePush_full_evicts q d x hq⟩

/-- C5 witness: instantiating at a concrete full queue of 200 frames. -/
theorem c5_witness :
    (List.replicate 200 (0 : ℕ)).length = 200 ∧
    queuePushDropOldest 200 (List.replicate 200 (0 : ℕ)) 0 7 =
      ((List.replicate 200 (0 : ℕ)).tail ++ [7], 0 + 1) := by
  refine ⟨by rw [List.length_replicate], ?_⟩
  exact (c5_stt_queue_bounded_drop_oldest ([] : List (Option ℕ))
    (List.replicate 200 0) 0 7 (by rw [List.length_replicate])).2.2

/-- C7: on `/esp32/audio`, a non-text first message closes the
connection with code 1003, reason "Expected JSON hello", and registers
no per-role mic state; a text first message that fails JSON parsing
closes with 1003 "Invalid hello", likewise registering no state. -/
theorem c7_esp32_hello_rejects (loads : String → Option Json)
    (byRole : List (String × Esp32AudioState)) (qd qr : String) (now : ℝ) :
    (∀ payload : List ℤ,
      esp32HelloStep loads byRole qd qr (.binary payload) now =
        (byRole, .closed 1003 "Expected JSON hello")) ∧
    (∀ raw : String, loads raw = none →
      esp32HelloStep loads byRole qd qr (.text raw) now =
        (byRole, .closed 1003 "Invalid hello")) := by
  constructor
  · intro payload
    rfl
  · intro raw h
    simp [esp32HelloStep, h]

/-- C7 witness: a concrete binary first message and a concrete
unparseable text message. -/
theorem c7_witness :
    esp32HelloStep (fun _ => none) [] "d1" "left" (.binary [0, 1]) 0 =
      ([], .closed 1003 "Expected JSON hello") ∧
    esp32HelloStep (fun _ => none) [] "d1" "left" (.text "not json") 0 =
      ([], .closed 1003 "Invalid hello") := by
  refine ⟨(c7_esp32_hello_rejects (fun _ => none) [] "d1" "left" 0).1 [0, 1], ?_⟩
  exact (c7_esp32_hello_rejects (fun _ => none) [] "d1" "left" 0).2
    "not json" rfl

/-- C8 counterexample: a `/stt` hello with `sampleRateHz = 48000`
installs no state, but a binary frame that follows is *not* ignored: it
is processed under a best-effort default state — the downmixed frame is
pushed to the stt queue and float samples are appended to the back-left
ring. -/
theorem c8_frames_not_ignored :
    androidHelloApply android_mic_force_channels none
      ⟨"pcm_s16le", 48000, 1, 20, "android"⟩ 0 = none ∧
    (androidFrameStep android_mic_force_channels none [5, 6] 0).stt_push =
      some [5] ∧
    (androidFrameStep android_mic_force_channels none [5, 6] 0).bl_append =
      [(5 : ℚ) / 32768] := by
  refine ⟨by simp [androidHelloApply], ?_, ?_⟩ <;>
    norm_num [androidFrameStep, androidDefaultState,
      android_mic_force_channels, pyTruncInt, evenIdx, oddIdx,
      analysisPush, queuePushDropOldest]
  all_goals decide

/-- C8 (amended): a phone-mic hello declaring `sampleRateHz ≠ 16000`
installs no phone-mic state from that hello, but binary frames that
follow are *processed* under a best-effort default state (16 kHz,
forced-stereo default, auto-redetected from the frame size) rather than
ignored: a mono-sized (640-byte) frame is pushed to the stt queue. -/
theorem c8_bad_rate_hello_then_default_processing
    (st : Option AndroidMicState) (now : ℝ) :
    (∀ h : AndroidHello, h.sample_rate_hz ≠ 16000 →
      androidHelloApply android_mic_force_channels st h now = st) ∧
    (∀ frame : List ℤ, 2 * (frame.length : ℤ) = 640 →
      (androidFrameStep android_mic_force_channels none frame now).stt_push =
        some frame) := by
  constructor
  · intro h hrate
    unfold androidHelloApply
    split_ifs with h1
    · rfl
    · rfl
  · intro frame hlen
    have hlen' : frame.length = 320 := by omega
    have hne : ¬ frame.length = 0 := by omega
    norm_num [androidFrameStep, androidDefaultState,
      android_mic_force_channels, pyTruncInt, hlen', hne]

/-- C8 witness: the amended theorem at a concrete bad-rate hello and a
concrete 320-sample (640-byte) frame. -/
theorem c8_witness :
    ((48000 : ℤ) ≠ 16000) ∧
    androidHelloApply android_mic_force_channels none
      ⟨"pcm_s16le", 48000, 1, 20, "android"⟩ 0 = none ∧
    (2 * ((List.replicate 320 (0 : ℤ)).length : ℤ) = 640) ∧
    (androidFrameStep android_mic_force_channels none
      (List.replicate 320 (0 : ℤ)) 0).stt_push =
      some (List.replicate 320 0) := by
  refine ⟨by decide, ?_, ?_, ?_⟩
  · exact (c8_bad_rate_hello_then_default_processing none 0).1 _ (by decide)
  · rw [List.length_replicate]
    norm_num
  · exact (c8_bad_rate_hello_then_default_processing none 0).2 _
      (by rw [List.length_replicate]; norm_num)

/-- C10: an accepted `/stt` hello always installs a state with
`channels = 2` and `bytes_per_frame = 2 × mono_bytes_per_frame` (the
server forces stereo at registration, even for `channels: 1` hellos);
afterwards a received frame of mono byte size flips the state back to
`channels = 1`, and a frame of any other size leaves `channels = 2`. -/
theorem c10_hello_forces_stereo (st : Option AndroidMicState)
    (h : AndroidHello) (now : ℝ) (s : AndroidMicState) (frame : List ℤ) :
    (h.audio_format = "pcm_s16le" → h.sample_rate_hz = 16000 →
      (h.channels = 1 ∨ h.channels = 2) →
      ∃ s', androidHelloApply android_mic_force_channels st h now = some s' ∧
        s'.channels = 2 ∧
        s'.bytes_per_frame = 2 * s'.mono_bytes_per_frame) ∧
    (s.channels = 2 → 2 * (frame.length : ℤ) = s.mono_bytes_per_frame →
      (androidFrameStep android_mic_force_channels (some s) frame
        now).state.channels = 1) ∧
    (s.channels = 2 → 2 * (frame.length : ℤ) ≠ s.mono_bytes_per_frame →
      (androidFrameStep android_mic_force_channels (some s) frame
        now).state.channels = 2) := by
  refine ⟨?_, ?_, ?_⟩
  · intro hf hr hc
    unfold androidHelloApply
    rw [if_neg (by simp [hf]), if_neg (by simp [hr]), if_neg (by simp [hc])]
    refine ⟨_, rfl, ?_, ?_⟩
    · rcases hc with hc | hc <;>
        simp [android_mic_force_channels, hc]
    · rcases hc with hc | hc <;>
        simp [android_mic_force_channels, hc] <;> ring
  · intro hc hm
    simp only [androidFrameStep]
    norm_num [hc, hm]
    split_ifs <;> rfl
  · intro hc hm
    simp only [androidFrameStep]
    norm_num [hc, hm]
    split_ifs <;> rfl

/-- C10 witness: a `channels: 1` hello is registered as stereo, a
640-byte frame flips back to mono, a 2-byte frame does not. -/
theorem c10_witness :
    (∃ s', androidHelloApply android_mic_force_channels none
        ⟨"pcm_s16le", 16000, 1, 20, "phone"⟩ 0 = some s' ∧
      s'.channels = 2 ∧
      s'.bytes_per_frame = 2 * s'.mono_bytes_per_frame) ∧
    (androidFrameStep android_mic_force_channels
      (some ⟨"android", 16000, 2, 20, 1280, 640, [], [], 0, 0, 0, 0, 0⟩)
      (List.replicate 320 (0 : ℤ)) 0).state.channels = 1 ∧
    (androidFrameStep android_mic_force_channels
      (some ⟨"android", 16000, 2, 20, 1280, 640, [], [], 0, 0, 0, 0, 0⟩)
      [1] 0).state.channels = 2 := by
  refine ⟨?_, ?_, ?_⟩
  · exact (c10_hello_forces_stereo none ⟨"pcm_s16le", 16000, 1, 20, "phone"⟩
      0 ⟨"android", 16000, 2, 20, 1280, 640, [], [], 0, 0, 0, 0, 0⟩ []).1
      rfl rfl (Or.inl rfl)
  · exact (c10_hello_forces_stereo none ⟨"pcm_s16le", 16000, 1, 20, "phone"⟩
      0 ⟨"android", 16000, 2, 20, 1280, 640, [], [], 0, 0, 0, 0, 0⟩
      (List.replicate 320 0)).2.1 rfl
      (by rw [List.length_replicate]; norm_num)
  · exact (c10_hello_forces_stereo none ⟨"pcm_s16le", 16000, 1, 20, "phone"⟩
      0 ⟨"android", 16000, 2, 20, 1280, 640, [], [], 0, 0, 0, 0, 0⟩
      [1]).2.2 rfl (by decide)

/-- C9 counterexample: a `config.update` carrying a wrong-typed
`alarmRmsThreshold` (`null`) alongside a valid `esp32GainLeft: 2`:
the coercion raises, the valid gain field is *not* applied (it stays at
its default 1), and the message fails with an uncaught exception. -/
theorem c9_one_bad_field_rejects_rest :
    (configUpdate defaultServerConfig
      (Json.obj [("type", Json.str "config.update"),
        ("alarmRmsThreshold", Json.null),
        ("esp32GainLeft", Json.num 2)])).2 = some "TypeError" ∧
    (configUpdate defaultServerConfig
      (Json.obj [("type", Json.str "config.update"),
        ("alarmRmsThreshold", Json.null),
        ("esp32GainLeft", Json.num 2)])).1.esp32_gain_left = 1 := by
  constructor <;> rfl

/-- C9 (amended): the recognized fields of a `config.update` are applied
one after another in source order with bare `float(...)` coercions; when
the value of `alarmRmsThreshold` (the first field read) has a wrong
type, the coercion raises before any field is applied, so no other valid
field in the message takes effect and the exception escapes the message
loop (failing the `/events` connection handler). -/
theorem c9_bad_field_aborts_message (cfg : ServerConfig) (j : Json)
    (v : Json) (hget : jGetD j "alarmRmsThreshold" = some v)
    (hbad : pyFloat v = none) :
    configUpdate cfg j = (cfg, some "TypeError") := by
  simp only [configUpdate, floatFieldOrKeep, hget, hbad]

/-- C9 witness: the amended theorem at the concrete bad message. -/
theorem c9_witness :
    jGetD (Json.obj [("type", Json.str "config.update"),
        ("alarmRmsThreshold", Json.null),
        ("esp32GainLeft", Json.num 2)]) "alarmRmsThreshold" =
      some Json.null ∧
    pyFloat Json.null = none ∧
    configUpdate defaultServerConfig
      (Json.obj [("type", Json.str "config.update"),
        ("alarmRmsThreshold", Json.null),
        ("esp32GainLeft", Json.num 2)]) =
      (defaultServerConfig, some "TypeError") := by
  refine ⟨rfl, rfl, ?_⟩
  exact c9_bad_field_aborts_message defaultServerConfig _ Json.null rfl rfl

/-- C3 counterexample: in back-only mode with band energies `bl = 1`,
`br = 0`, gain 150° and exponent 0.8, the computed `raw_direction_deg`
is negative — it is not ≈ +150° and not in the rear-right hemisphere.
(`wrap(180 − shaped × gain)` with `shaped ≈ −1` is `wrap(≈330°) ≈
−30°`.) -/
theorem c3_back_only_not_rear_right :
    sourceOf (directionFusion defaultDirConfig backOnlyView 0) = some "back" ∧
    rawOf (directionFusion defaultDirConfig backOnlyView 0) < 0 := by
  rw [backOnly_fusion_eval]
  refine ⟨rfl, ?_⟩
  show wrap_deg (180 + 150 * ((1000000 / 1000001 : ℝ) ^ (0.8 : ℝ))) < 0
  obtain ⟨hs1, hs2⟩ := rpow_bounds
  rw [wrap_deg_eq_sub_360 (by nlinarith) (by nlinarith)]
  nlinarith

/-- C3 (amended): in back-only fusion mode with band energies `bl = 1`
and `br = 0`, gain 150° and exponent 0.8, the computed
`raw_direction_deg` is approximately −30° (strictly between −30.0002°
and −30°), i.e. in the front-left hemisphere: the rear arc formula
`wrap(180° − shaped × gain)` with `shaped ≈ −1` wraps `≈ 330°` to
`≈ −30°`. -/
theorem c3_back_only_approx_minus_30 :
    sourceOf (directionFusion defaultDirConfig backOnlyView 0) = some "back" ∧
    (-30.0002 : ℝ) < rawOf (directionFusion defaultDirConfig backOnlyView 0) ∧
    rawOf (directionFusion defaultDirConfig backOnlyView 0) < -30 := by
  rw [backOnly_fusion_eval]
  refine ⟨rfl, ?_, ?_⟩ <;>
    show _
  · show (-30.0002 : ℝ) <
      wrap_deg (180 + 150 * ((1000000 / 1000001 : ℝ) ^ (0.8 : ℝ)))
    obtain ⟨hs1, hs2⟩ := rpow_bounds
    rw [wrap_deg_eq_sub_360 (by nlinarith) (by nlinarith)]
    nlinarith
  · show wrap_deg (180 + 150 * ((1000000 / 1000001 : ℝ) ^ (0.8 : ℝ))) < -30
    obtain ⟨hs1, hs2⟩ := rpow_bounds
    rw [wrap_deg_eq_sub_360 (by nlinarith) (by nlinarith)]
    nlinarith

/-- C4 counterexample: with only a mono phone mic fresh, the published
source is "back", not "mono" (raw direction is still fixed at 180°). -/
theorem c4_mono_phone_source_back :
    sourceOf (directionFusion defaultDirConfig monoPhoneView 0) =
      some "back" ∧
    "back" ≠ "mono" ∧
    rawOf (directionFusion defaultDirConfig monoPhoneView 0) = 180 := by
  have heval : directionFusion defaultDirConfig monoPhoneView 0 =
      some ("back", 180, 1) := by
    unfold directionFusion monoPhoneView defaultDirConfig
    norm_num [pyclip]
  rw [heval]
  exact ⟨rfl, by simp, rfl⟩

/-- C4 (amended): when exactly one audio channel is fresh, the direction
loop publishes a payload whose source is "back" for the phone mic (raw
direction fixed at 180°) and "front" for a single front mic (raw fixed
at 0°) — never "mono" — with intensity derived from that channel's RMS
(noise floor subtracted, mono gain, clipped to [0, 1]). -/
theorem c4_single_channel_fusion (cfg : DirConfig) (v : MicView) (now : ℝ) :
    (∀ m, v.mic = some m → now - m.last_seen < 1 → m.channels ≠ 2 →
      (∀ s, v.front_left = some s → ¬ now - s.last_seen < 1) →
      (∀ s, v.front_right = some s → ¬ now - s.last_seen < 1) →
      directionFusion cfg v now = some ("back", 180,
        pyclip (max 0 (m.last_rms - cfg.noise_floor) * cfg.gain_mono) 0 1)) ∧
    (∀ s, v.front_left = some s → now - s.last_seen < 1 →
      (∀ s', v.front_right = some s' → ¬ now - s'.last_seen < 1) →
      (∀ m, v.mic = some m → ¬ now - m.last_seen < 1) →
      directionFusion cfg v now = some ("front", 0,
        pyclip (max 0 (s.last_rms - cfg.noise_floor) * cfg.gain_mono) 0 1)) ∧
    (∀ s, v.front_right = some s → now - s.last_seen < 1 →
      (∀ s', v.front_left = some s' → ¬ now - s'.last_seen < 1) →
      (∀ m, v.mic = some m → ¬ now - m.last_seen < 1) →
      directionFusion cfg v now = some ("front", 0,
        pyclip (max 0 (s.last_rms - cfg.noise_floor) * cfg.gain_mono) 0 1)) := by
  refine ⟨?_, ?_, ?_⟩
  · intro m hm hfresh hch hL hR
    unfold directionFusion
    rcases hfl : v.front_left with _ | s
    · rcases hfr : v.front_right with _ | s'
      · simp [hm, hfresh, hch]
      · have := hR s' hfr
        simp [hm, hfresh, hch, this]
    · have hLs := hL s hfl
      rcases hfr : v.front_right with _ | s'
      · simp [hm, hfresh, hch, hLs]
      · have := hR s' hfr
        simp [hm, hfresh, hch, hLs, this]
  · intro s hfl hfresh hR hM
    unfold directionFusion
    rcases hm : v.mic with _ | m
    · rcases hfr : v.front_right with _ | s'
      · simp [hfl, hfresh]
      · have := hR s' hfr
        simp [hfl, hfresh, this]
    · have hMs := hM m hm
      rcases hfr : v.front_right with _ | s'
      · simp [hfl, hfresh, hm, hMs]
      · have := hR s' hfr
        simp [hfl, hfresh, hm, hMs, this]
  · intro s hfr hfresh hL hM
    unfold directionFusion
    rcases hm : v.mic with _ | m
    · rcases hfl : v.front_left with _ | s'
      · simp [hfr, hfresh]
      · have := hL s' hfl
        simp [hfr, hfresh, this]
    · have hMs := hM m hm
      rcases hfl : v.front_left with _ | s'
      · simp [hfr, hfresh, hm, hMs]
      · have := hL s' hfl
        simp [hfr, hfresh, hm, hMs, this]

/-- C4 witness: the amended theorem applied to concrete single-channel
views (a mono phone, a lone left front mic, a lone right front mic). -/
theorem c4_witness :
    directionFusion defaultDirConfig monoPhoneView 0 = some ("back", 180,
      pyclip (max 0 ((0.2 : ℝ) - defaultDirConfig.noise_floor) *
        defaultDirConfig.gain_mono) 0 1) ∧
    directionFusion defaultDirConfig
      ⟨some ⟨0.2, 0⟩, none, none⟩ 0 = some ("front", 0,
      pyclip (max 0 ((0.2 : ℝ) - defaultDirConfig.noise_floor) *
        defaultDirConfig.gain_mono) 0 1) ∧
    directionFusion defaultDirConfig
      ⟨none, some ⟨0.2, 0⟩, none⟩ 0 = some ("front", 0,
      pyclip (max 0 ((0.2 : ℝ) - defaultDirConfig.noise_floor) *
        defaultDirConfig.gain_mono) 0 1) := by
  refine ⟨?_, ?_, ?_⟩
  · exact (c4_single_channel_fusion defaultDirConfig monoPhoneView 0).1
      ⟨1, 0.2, 0.2, 0.2, 0⟩ rfl (by norm_num) (by norm_num)
      (fun s h => by simp [monoPhoneView] at h)
      (fun s h => by simp [monoPhoneView] at h)
  · exact (c4_single_channel_fusion defaultDirConfig
      ⟨some ⟨0.2, 0⟩, none, none⟩ 0).2.1
      ⟨0.2, 0⟩ rfl (by norm_num)
      (fun s h => by simp at h)
      (fun m h => by simp at h)
  · exact (c4_single_channel_fusion defaultDirConfig
      ⟨none, some ⟨0.2, 0⟩, none⟩ 0).2.2
      ⟨0.2, 0⟩ rfl (by norm_num)
      (fun s h => by simp at h)
      (fun m h => by simp at h)

/-- C6: on every radar emit step with `radar_max_dots ≥ 1`: a track
older than 3 s is removed and not emitted; every emitted dot comes from
a track of age ≤ 3 s and carries display intensity
`intensity × exp(−age/τ)` (with τ floored at 0.1), at least
`max 0 min_intensity`; a surviving-age track whose decayed intensity
falls below the floor is removed; the emitted dots are sorted by
descending display intensity and truncated to at most
`radar_max_dots`. -/
theorem c6_radar_emit_decay_prune_sort (decay_tau min_intensity : ℝ)
    (radar_max_dots : ℕ) (tracks : List RadarTrack) (now delta_yaw : ℝ)
    (h : 1 ≤ radar_max_dots) :
    (∀ tr ∈ tracks, 3 < now - tr.last_seen →
      tr ∉ (emitRadarTracks decay_tau min_intensity radar_max_dots tracks
        now delta_yaw).1) ∧
    (∀ tr ∈ tracks, now - tr.last_seen ≤ 3 →
      tr.intensity * Real.exp (-((now - tr.last_seen) / max 0.1 decay_tau)) <
        max 0 min_intensity →
      tr ∉ (emitRadarTracks decay_tau min_intensity radar_max_dots tracks
        now delta_yaw).1) ∧
    (∀ d ∈ (emitRadarTracks decay_tau min_intensity radar_max_dots tracks
        now delta_yaw).2,
      ∃ tr ∈ tracks, now - tr.last_seen ≤ 3 ∧
        d.intensity = tr.intensity *
          Real.exp (-((now - tr.last_seen) / max 0.1 decay_tau)) ∧
        max 0 min_intensity ≤ d.intensity) ∧
    List.Pairwise (fun a b : RadarDot => b.intensity ≤ a.intensity)
      (emitRadarTracks decay_tau min_intensity radar_max_dots tracks
        now delta_yaw).2 ∧
    (emitRadarTracks decay_tau min_intensity radar_max_dots tracks
      now delta_yaw).2.length ≤ radar_max_dots := by
  refine ⟨?_, ?_, ?_, ?_, ?_⟩
  · intro tr _ hage hmem
    exact kept_mem_elim hmem (emitStep_none_stale hage)
  · intro tr _ hage hfaint hmem
    exact kept_mem_elim hmem (emitStep_none_faint hage hfaint)
  · intro d hd
    unfold emitRadarTracks at hd
    simp only [] at hd
    have hd2 : d ∈ ((tracks.filterMap
        (emitStep decay_tau min_intensity now delta_yaw)).map
          Prod.snd).mergeSort
            (fun a b => decide (b.intensity ≤ a.intensity)) :=
      (List.take_sublist _ _).mem hd
    have hd3 := (List.mergeSort_perm _ _).mem_iff.mp hd2
    simp only [List.mem_map, List.mem_filterMap] at hd3
    obtain ⟨p, ⟨tr, htr, hstep⟩, hsnd⟩ := hd3
    obtain ⟨_, hage, hint, hfloor⟩ := emitStep_some_elim hstep
    exact ⟨tr, htr, hage, by rw [← hsnd]; exact hint, by rw [← hsnd]; exact hfloor⟩
  · unfold emitRadarTracks
    simp only []
    have hsorted := @List.sorted_mergeSort RadarDot
      (fun a b : RadarDot => decide (b.intensity ≤ a.intensity))
      (fun a b c hab hbc => by
        simp only [decide_eq_true_eq] at *
        exact le_trans hbc hab)
      (fun a b => by
        simp only [Bool.or_eq_true, decide_eq_true_eq]
        exact le_total b.intensity a.intensity)
      ((tracks.filterMap (emitStep decay_tau min_intensity now
        delta_yaw)).map Prod.snd)
    have hconv : List.Pairwise (fun a b : RadarDot => b.intensity ≤ a.intensity)
        (((tracks.filterMap (emitStep decay_tau min_intensity now
          delta_yaw)).map Prod.snd).mergeSort
            (fun a b => decide (b.intensity ≤ a.intensity))) :=
      hsorted.imp (fun hab => by simpa using hab)
    exact hconv.sublist (List.take_sublist _ _)
  · unfold emitRadarTracks
    simp only []
    calc (List.take (max 1 radar_max_dots) _).length
        ≤ max 1 radar_max_dots := List.length_take_le _ _
      _ = radar_max_dots := max_eq_right h

/-- C6 witness: a single stale track (age 5 s > 3 s) is pruned and the
emitted dot list is within the dot budget. -/
theorem c6_witness :
    (1 : ℕ) ≤ 3 ∧
    (⟨1, 1000, 0.5, 10, 0⟩ : RadarTrack) ∉
      (emitRadarTracks 1.2 0.15 3 [⟨1, 1000, 0.5, 10, 0⟩] 5 0).1 ∧
    (emitRadarTracks 1.2 0.15 3 [⟨1, 1000, 0.5, 10, 0⟩] 5 0).2.length ≤ 3 := by
  refine ⟨by decide, ?_, ?_⟩
  · exact (c6_radar_emit_decay_prune_sort 1.2 0.15 3 _ 5 0 (by decide)).1
      _ (by simp) (by norm_num)
  · exact (c6_radar_emit_decay_prune_sort 1.2 0.15 3 _ 5 0 (by decide)).2.2.2.2

end HudSpecClaims
